import Mathlib

/-!
# TrackFlow — verification of the audio-analysis core

Shallow embedding of the TrackFlow repository's analysis core
(`src/analyzer/audio_analyzer.py`, `src/analyzer/similarity.py`,
`src/analyzer/batch_analyzer.py`, `src/ui/main_window.py`) and proofs of the
claims made by the natural-language specification about it.

Modelling conventions:
* Python floats are idealised as exact numbers: `ℚ` where the code only
  performs field arithmetic and comparisons, `ℝ` where it uses transcendental
  functions (`log10`, `log2`, `sqrt`, `sin`/`cos`, FFT).
* Python `round` (banker's rounding, round-half-to-even) is modelled by
  `pyRound` / `pyRoundR`; `int()` truncation toward zero by `pyInt`.
* `dict` results become structures; a `try/except` body that can raise is
  modelled by an `Except`-valued input, the `except` branch by the `.error`
  case.
* Machine integers in the MD5 cache-key hash are `ℕ` with explicit
  `% 2^32` where overflow matters.
-/

namespace TrackFlow

/-- Python's built-in `round` on a rational, to an integer: round half to
even (banker's rounding). -/
def pyRound (x : ℚ) : ℤ :=
  let f : ℤ := ⌊x⌋
  let r : ℚ := x - f
  if r < 1/2 then f
  else if 1/2 < r then f + 1
  else if f % 2 = 0 then f else f + 1

/-! ## `MainWindow._snap_loop` (src/ui/main_window.py)

The bar-snap loop operation.  The surrounding state is passed explicitly:
`bpm` is `self.current_track.get('bpm')` (an `Option`, and Python's
`if not bpm` also rejects a zero bpm), `total` is
`self.current_track.get('duration', 0)`, `position` is
`self.audio_player.get_position()` (normalized 0..1).  On success the
function stores `(self._loop_a, self._loop_b)`, returned here as the
`some` payload; the early-return guards yield `none`. -/
def snap_loop (bpm : Option ℚ) (total : ℚ) (position : ℚ) (bars : ℚ) :
    Option (ℚ × ℚ) :=
  match bpm with
  | none => none
  | some b =>
    if b = 0 then none          -- `if not bpm: return`
    else if total ≤ 0 then none -- `if total <= 0: return`
    else
      let secs_per_bar : ℚ := 4 * 60 / b
      let cur_secs : ℚ := position * total
      let bar_num : ℤ := pyRound (cur_secs / secs_per_bar)
      let a_secs : ℚ := bar_num * secs_per_bar
      let b_secs : ℚ := min (a_secs + bars * secs_per_bar) total
      some (a_secs / total, b_secs / total)

/-! ## `AudioAnalyzer.analyze_track` result shape (src/analyzer/audio_analyzer.py)

The keys of the `results` dict literal built at lines 59–68. -/
def analyze_track_result_keys : List String :=
  ["file_path", "filename", "bpm", "key", "energy",
   "metadata", "audio_info", "duration"]

/-! ## `AudioAnalyzer._calculate_energy_full` (src/analyzer/audio_analyzer.py) -/

/-- The nine ascending RMS thresholds. -/
def energy_thresholds : List ℝ :=
  [0.05, 0.08, 0.11, 0.14, 0.17, 0.20, 0.23, 0.26, 0.30]

open Classical in
/-- `next((i + 1 for i, t in enumerate(thresholds) if avg_rms < t), 10)`:
scan the threshold list with a running index, returning `i + 1` at the first
threshold that `rms` is strictly below, and the default `10` if the
generator is exhausted. -/
noncomputable def levelFrom (i : ℕ) : List ℝ → ℝ → ℕ
  | [], _ => 10
  | t :: ts, r => if r < t then i + 1 else levelFrom (i + 1) ts r

/-- The rms → level mapping of `_calculate_energy_full`. -/
noncomputable def energy_level (rms : ℝ) : ℕ := levelFrom 0 energy_thresholds rms

/-- The fixed `descriptions` dict mapping level to text. -/
def energy_description : ℕ → String
  | 1 => "Very Low" | 2 => "Low" | 3 => "Low-Med" | 4 => "Medium"
  | 5 => "Medium" | 6 => "Med-High" | 7 => "High" | 8 => "High"
  | 9 => "Very High" | 10 => "Peak" | _ => ""

structure EnergyResult where
  level : ℕ
  rms : ℝ
  description : String

/-- `_calculate_energy_full`, with the chunked file read abstracted to its
observable outcome: `none` models an I/O/decode exception while reading
(caught by the broad `except`), `some samples` the concatenated mono
samples of all blocks (summing squares chunk by chunk or over the
concatenation gives the same `sum_sq` and `n_frames`). -/
noncomputable def calculate_energy_full (blocks : Option (List ℝ)) : EnergyResult :=
  match blocks with
  | none => ⟨5, 0, "Unknown"⟩            -- `except` branch
  | some samples =>
    if samples.length = 0 then ⟨5, 0, "Unknown"⟩  -- `ValueError("Empty audio file")`, caught
    else
      let sum_sq : ℝ := (samples.map (fun x => x * x)).sum
      let avg_rms : ℝ := Real.sqrt (sum_sq / samples.length)
      let lvl := energy_level avg_rms
      ⟨lvl, avg_rms, energy_description lvl⟩

/-! ## `analyzer/similarity.py` -/

/-- The parsed content of a cache JSON file, restricted to the fields
`similarity.py` reads: `features` (`data.get('features')`, `none` covering a
missing or falsy value), `bpm` (`meta.get('bpm')`) and the Camelot key
(`meta.get('key', {}).get('camelot', '--')`, `none` when absent). -/
structure FeatureSet where
  mfcc : List ℚ
  chroma : List ℚ
  deriving DecidableEq

structure CacheEntry where
  features : Option FeatureSet
  bpm : Option ℚ
  camelot : Option String
  deriving DecidableEq

/-- The cache directory contents, as a map from file path to the parsed
cache entry for that path.  `none` covers all of: no cache file for the
path's key, an unreadable/unparsable file, and a failing `stat` — every
case in which `_load_feature_vector`'s `try` body cannot produce parsed
JSON (its broad `except` returns `None`). -/
def Cache : Type := String → Option CacheEntry

/-- `_load_feature_vector`: the 32-dim feature vector from cache, or `none`
if unavailable. -/
def load_feature_vector (cache : Cache) (file_path : String) : Option (List ℚ) :=
  match cache file_path with
  | none => none
  | some data =>
    match data.features with
    | none => none                                -- `if not feats: return None`
    | some feats =>
      let mfcc := feats.mfcc
      let chroma := feats.chroma
      if mfcc.length ≠ 20 ∨ chroma.length ≠ 12 then none
      else some (mfcc ++ chroma)

/-- `np.linalg.norm`: the Euclidean norm of a vector. -/
noncomputable def l2norm (v : List ℝ) : ℝ :=
  Real.sqrt ((v.map (fun x => x * x)).sum)

/-- `np.dot` on equal-length 1-D arrays. -/
def dotList (a b : List ℝ) : ℝ := (List.zipWith (· * ·) a b).sum

open Classical in
/-- `_cosine_similarity`. -/
noncomputable def cosine_similarity (a b : List ℝ) : ℝ :=
  let norm_a := l2norm a
  let norm_b := l2norm b
  if norm_a < 1e-9 ∨ norm_b < 1e-9 then 0
  else dotList a b / (norm_a * norm_b)

open Classical in
/-- Python's `round(x, 4)` (half-to-even on the scaled value). -/
noncomputable def pyRound4R (x : ℝ) : ℝ :=
  let y := x * 10000
  let f : ℤ := ⌊y⌋
  let r : ℝ := y - f
  (if r < 1/2 then (f : ℝ)
   else if 1/2 < r then (f + 1 : ℤ)
   else if f % 2 = 0 then (f : ℝ) else (f + 1 : ℤ)) / 10000

/-- `pathlib.Path(fp).stem`: final path component without its last suffix. -/
def path_stem (s : String) : String :=
  let base := (s.splitOn "/").getLastD s
  let parts := base.splitOn "."
  if parts.length ≤ 1 then base else String.intercalate "." parts.dropLast

/-- One entry of `find_similar`'s result list. -/
structure SimResult where
  file_path : String
  name : String
  similarity : ℝ
  bpm : Option ℚ
  key : String

open Classical in
/-- `find_similar`.  The second cache read (`meta = json.loads(...)`) reads
the same parsed entry; its `except` branch (`meta = {}`) corresponds to the
`none` case. -/
noncomputable def find_similar (cache : Cache) (query_fp : String)
    (candidate_fps : List String) (top_n : ℕ) : List SimResult :=
  match load_feature_vector cache query_fp with
  | none => []                   -- `if query_vec is None: return []`
  | some query_vec =>
    let results := candidate_fps.filterMap (fun fp =>
      if fp = query_fp then none            -- `if fp == query_fp: continue`
      else
        match load_feature_vector cache fp with
        | none => none                      -- `if vec is None: continue`
        | some vec =>
          let sim := cosine_similarity (query_vec.map (Rat.cast ·))
            (vec.map (Rat.cast ·))
          let meta := cache fp
          some { file_path := fp
                 name := path_stem fp
                 similarity := pyRound4R ((sim + 1) / 2)
                 bpm := (meta.map (·.bpm)).getD none
                 key := ((meta.map (·.camelot)).getD none).getD "--" })
    -- `results.sort(key=..., reverse=True)`: stable sort, similarity descending
    let sorted := results.mergeSort (fun r s => decide (s.similarity ≤ r.similarity))
    sorted.take top_n

/-! ## Shared numeric helpers for the DSP embedding -/

open Classical in
/-- Python `int()`: truncation toward zero. -/
noncomputable def pyInt (x : ℝ) : ℤ := if 0 ≤ x then ⌊x⌋ else ⌈x⌉

open Classical in
/-- Python/numpy `round` on a real, to an integer: half to even. -/
noncomputable def pyRoundR (x : ℝ) : ℤ :=
  let f : ℤ := ⌊x⌋
  let r : ℝ := x - f
  if r < 1/2 then f
  else if 1/2 < r then f + 1
  else if f % 2 = 0 then f else f + 1

/-- Python `round(x, 1)`: round to one decimal place (idealised to the exact
decimal value). -/
noncomputable def pyRound1R (x : ℝ) : ℝ := (pyRoundR (x * 10) : ℝ) / 10

open Classical in
/-- `np.argmax` over the values `f x` for `x` drawn from an index list:
the first index attaining the maximum (ties keep the earlier index),
`none` on an empty list (numpy raises on an empty argmax). -/
noncomputable def argmaxList (f : ℕ → ℝ) : List ℕ → Option ℕ
  | [] => none
  | x :: xs =>
    match argmaxList f xs with
    | none => some x
    | some y => if f y > f x then some y else some x

/-! ## `AudioAnalyzer._build_mel_fb` (src/analyzer/audio_analyzer.py) -/

noncomputable def hz_to_mel (h : ℝ) : ℝ := 2595 * Real.logb 10 (1 + h / 700)

noncomputable def mel_to_hz (m : ℝ) : ℝ := 700 * ((10 : ℝ) ^ (m / 2595) - 1)

/-- `rfftfreq(n_fft, d=1.0/sr)`: the center frequency of FFT bin `i`. -/
noncomputable def rfft_freq (sr : ℝ) (i : ℕ) : ℝ := i * sr / 2048

/-- `np.linspace(hz_to_mel(0), hz_to_mel(sr / 2), 130)`, point `j`. -/
noncomputable def mel_pts (sr : ℝ) (j : ℕ) : ℝ :=
  hz_to_mel 0 + j * (hz_to_mel (sr / 2) - hz_to_mel 0) / 129

/-- `_build_mel_fb(sr, 2048, n_mels=128)`: weight of mel band `m` at FFT
bin `i` (`np.clip(np.minimum(rise, fall), 0, 1)`). -/
noncomputable def build_mel_fb (sr : ℝ) (m i : ℕ) : ℝ :=
  let lo := mel_to_hz (mel_pts sr m)
  let mid := mel_to_hz (mel_pts sr (m + 1))
  let hi := mel_to_hz (mel_pts sr (m + 2))
  let f := rfft_freq sr i
  let rise := (f - lo) / (mid - lo + 1e-8)
  let fall := (hi - f) / (hi - mid + 1e-8)
  min (max (min rise fall) 0) 1

/-- `self._mel_fb`, built once at `__init__` with the fixed
`SAMPLE_RATE = 22050` (regardless of the `sr` later passed to
`_detect_bpm`). -/
noncomputable def mel_fb : ℕ → ℕ → ℝ := build_mel_fb 22050

/-! ## `AudioAnalyzer._detect_bpm` (src/analyzer/audio_analyzer.py)

The power spectrogram is a `(1025 × T)` matrix, embedded as its entry
function `S : ℕ → ℕ → ℝ` (bin, frame) together with the frame count `T`. -/

/-- `S_mel = self._mel_fb @ S_power`. -/
noncomputable def s_mel (S : ℕ → ℕ → ℝ) (m t : ℕ) : ℝ :=
  ∑ i ∈ Finset.range 1025, mel_fb m i * S i t

/-- `S_mel_db = 10 * np.log10(S_mel + 1e-10)`. -/
noncomputable def s_mel_db (S : ℕ → ℕ → ℝ) (m t : ℕ) : ℝ :=
  10 * Real.logb 10 (s_mel S m t + 1e-10)

/-- `flux = np.maximum(0, np.diff(S_mel_db, axis=1)).mean(axis=0)`,
entry `t` (defined for `t < T - 1`). -/
noncomputable def onset_flux (S : ℕ → ℕ → ℝ) (t : ℕ) : ℝ :=
  (∑ m ∈ Finset.range 128, max 0 (s_mel_db S m (t + 1) - s_mel_db S m t)) / 128

/-- `env = flux - flux.mean()` (the flux vector has `T - 1` entries). -/
noncomputable def onset_env (S : ℕ → ℕ → ℝ) (T : ℕ) (t : ℕ) : ℝ :=
  onset_flux S t - (∑ u ∈ Finset.range (T - 1), onset_flux S u) / ((T : ℝ) - 1)

/-- `corr = np.correlate(env, env, mode='full')[len(corr) // 2:]`:
the autocorrelation at non-negative lag `l`
(`corr[l] = Σ_t env[t + l] * env[t]`, length `T - 1`). -/
noncomputable def autocorr (S : ℕ → ℕ → ℝ) (T : ℕ) (l : ℕ) : ℝ :=
  ∑ t ∈ Finset.range (T - 1 - l), onset_env S T (t + l) * onset_env S T t

/-- `lag_min = max(1, int(fps * 60 / 200))`. -/
noncomputable def bpm_lag_min (sr : ℝ) : ℤ := max 1 (pyInt (sr / 512 * 60 / 200))

/-- `lag_max = min(len(corr) - 1, int(fps * 60 / 60))`, `len(corr) = T - 1`. -/
noncomputable def bpm_lag_max (T : ℕ) (sr : ℝ) : ℤ :=
  min ((T : ℤ) - 1 - 1) (pyInt (sr / 512 * 60 / 60))

open Classical in
/-- `peak_lag = np.argmax(corr[lag_min:lag_max]) + lag_min`: first-maximum
lag of the autocorrelation over the slice `[lag_min, lag_max)`.  An empty
slice makes `np.argmax` raise, which the broad `except` turns into `None`
(`none` here); Python's negative-index slice wrap-around is not modelled
(it is unreachable for the positive sample rates the claims quantify
over). -/
noncomputable def bpm_peak_lag (S : ℕ → ℕ → ℝ) (T : ℕ) (sr : ℝ) : Option ℕ :=
  let lmin := bpm_lag_min sr
  let lmax := bpm_lag_max T sr
  if lmin < lmax then
    argmaxList (autocorr S T)
      ((List.range (lmax - lmin).toNat).map (fun j => lmin.toNat + j))
  else none

open Classical in
/-- `_detect_bpm(S_power, sr)`.  `T < 2` makes the onset envelope empty, so
`np.correlate` raises and the `except` returns `None`. -/
noncomputable def detect_bpm (S : ℕ → ℕ → ℝ) (T : ℕ) (sr : ℝ) : Option ℝ :=
  if T < 2 then none
  else
    match bpm_peak_lag S T sr with
    | none => none
    | some peak_lag => some (pyRound1R (sr / 512 * 60 / peak_lag))

/-! ## `AudioAnalyzer._detect_key` and helpers (src/analyzer/audio_analyzer.py) -/

/-- The result dict of `_detect_key`.  The source dict key `'notation'` is
a reserved token in Lean, hence the field name `keyNotation`. -/
structure KeyResult where
  keyNotation : String
  camelot : String
  open_key : String
  confidence : String
  deriving DecidableEq

/-- `int(round(midi)) % 12` for FFT bin `i`: the pitch class of the bin's
center frequency (`midi = 12 * np.log2(f / 440.0) + 69`). -/
noncomputable def pitch_class (sr : ℝ) (i : ℕ) : ℕ :=
  (pyRoundR (12 * Real.logb 2 (rfft_freq sr i / 440) + 69) % 12).toNat

/-- `S_power[i].mean()`: mean power of bin `i` over the `T` frames. -/
noncomputable def row_mean (S : ℕ → ℕ → ℝ) (T : ℕ) (i : ℕ) : ℝ :=
  (∑ t ∈ Finset.range T, S i t) / T

open Classical in
/-- The accumulated `chroma[pc]` of `_compute_chroma`: the loop runs over
bins `1..1024` (`freqs_hz[1:]`) and keeps those in the piano range. -/
noncomputable def chroma_sum (S : ℕ → ℕ → ℝ) (T : ℕ) (sr : ℝ) (pc : ℕ) : ℝ :=
  ∑ i ∈ Finset.Icc 1 1024,
    if 27.5 ≤ rfft_freq sr i ∧ rfft_freq sr i ≤ 4186 ∧ pitch_class sr i = pc
    then row_mean S T i else 0

open Classical in
/-- The accumulated `counts[pc]` of `_compute_chroma`. -/
noncomputable def chroma_counts (S : ℕ → ℕ → ℝ) (T : ℕ) (sr : ℝ) (pc : ℕ) : ℝ :=
  ∑ i ∈ Finset.Icc 1 1024,
    if 27.5 ≤ rfft_freq sr i ∧ rfft_freq sr i ≤ 4186 ∧ pitch_class sr i = pc
    then 1 else 0

/-- `_compute_chroma`: `chroma / np.maximum(counts, 1.0)`. -/
noncomputable def compute_chroma (S : ℕ → ℕ → ℝ) (T : ℕ) (sr : ℝ) (pc : ℕ) : ℝ :=
  chroma_sum S T sr pc / max (chroma_counts S T sr pc) 1

/-- The Krumhansl–Schmuckler major profile. -/
def major_profile : List ℚ :=
  [6.35, 2.23, 3.48, 2.33, 4.38, 4.09, 2.52, 5.19, 2.39, 3.66, 2.29, 2.88]

/-- The Krumhansl–Schmuckler minor profile. -/
def minor_profile : List ℚ :=
  [6.33, 2.68, 3.52, 5.38, 2.60, 3.97, 2.73, 5.17, 3.00, 4.00, 1.94, 3.17]

/-- `np.dot(np.roll(chroma_norm, -i), profile / profile.sum())`. -/
noncomputable def ks_score (chroma_norm : ℕ → ℝ) (profile : List ℚ) (i : ℕ) : ℝ :=
  ∑ j ∈ Finset.range 12,
    chroma_norm ((j + i) % 12) * ((profile.getD j 0 : ℝ) / (profile.sum : ℝ))

/-- `max(...)` over the 12 rotation scores. -/
noncomputable def max12 (f : ℕ → ℝ) : ℝ := ((List.range 12).map f).foldr max (f 0)

open Classical in
/-- `_is_major_key(chroma_avg)`. -/
noncomputable def is_major_key (chroma_avg : ℕ → ℝ) : Bool :=
  let chroma_norm := fun p =>
    chroma_avg p / ((∑ q ∈ Finset.range 12, chroma_avg q) + 1e-8)
  decide (max12 (ks_score chroma_norm major_profile) ≥
          max12 (ks_score chroma_norm minor_profile))

/-- The `keys` list of `_index_to_key`:
`['C', 'C#', 'D', 'D#', 'E', 'F', 'F#', 'G', 'G#', 'A', 'A#', 'B']`. -/
def key_names : List String :=
  ["C", "C#", "D", "D#", "E", "F"] ++ ["F#", "G", "G#", "A", "A#", "B"]

/-- `_index_to_key`. -/
def index_to_key (key_index : ℕ) (is_major : Bool) : String :=
  key_names.getD (key_index % 12) "" ++ " " ++ (if is_major then "Major" else "Minor")

def camelot_major : List String :=
  ["8B", "3B", "10B", "5B", "12B", "7B", "2B", "9B", "4B", "11B", "6B", "1B"]

def camelot_minor : List String :=
  ["5A", "12A", "7A", "2A", "9A", "4A", "11A", "6A", "1A", "8A", "3A", "10A"]

/-- `_to_camelot`. -/
def to_camelot (key_index : ℕ) (is_major : Bool) : String :=
  (if is_major then camelot_major else camelot_minor).getD (key_index % 12) ""

def open_key_numbers : List ℕ := [1, 8, 3, 10, 5, 12, 7, 2, 9, 4, 11, 6]

/-- `_to_open_key`. -/
def to_open_key (key_index : ℕ) (is_major : Bool) : String :=
  toString (open_key_numbers.getD (key_index % 12) 0) ++
    (if is_major then "m" else "d")

/-- The `try` body of `_detect_key`. -/
noncomputable def detect_key_ok (S : ℕ → ℕ → ℝ) (n_frames : ℕ) (sr : ℝ) :
    KeyResult :=
  let n_frames_30s := min (pyInt (30 * sr / 512)).toNat n_frames
  let chroma_avg := compute_chroma S n_frames_30s sr
  let key_index := (argmaxList chroma_avg (List.range 12)).getD 0
  let is_major := is_major_key chroma_avg
  { keyNotation := index_to_key key_index is_major
    camelot := to_camelot key_index is_major
    open_key := to_open_key key_index is_major
    confidence := "medium" }

/-- `_detect_key(S_power, n_frames, sr)`: the `try/except` is modelled by an
`Except`-valued input — `.ok` carries the arguments when the body runs to
completion, `.error` the message of any exception raised inside the `try`
block (e.g. an `IndexError` from a misshaped spectrogram), which the broad
`except` turns into the sentinel record. -/
noncomputable def detect_key
    (input : Except String ((ℕ → ℕ → ℝ) × ℕ × ℝ)) : KeyResult :=
  match input with
  | .ok (S, n_frames, sr) => detect_key_ok S n_frames sr
  | .error _ =>
    { keyNotation := "Unknown", camelot := "N/A"
      open_key := "N/A", confidence := "none" }

/-! ## `AudioAnalyzer._compute_stft` (src/analyzer/audio_analyzer.py) -/

/-- `get_window('hann', 2048)` (periodic Hann window, scipy default
`fftbins=True`). -/
noncomputable def hann_window (n : ℕ) : ℝ :=
  0.5 - 0.5 * Real.cos (2 * Real.pi * n / 2048)

/-- `y_pad = np.pad(y, self.N_FFT // 2)`: 1024 zeros on each side. -/
def stft_pad (y : List ℝ) : List ℝ :=
  List.replicate 1024 (0 : ℝ) ++ y ++ List.replicate 1024 0

/-- `n_frames = 1 + (len(y_pad) - self.N_FFT) // self.HOP_LENGTH`. -/
def stft_n_frames (y : List ℝ) : ℕ := 1 + ((stft_pad y).length - 2048) / 512

/-- Column `t` of the `as_strided` view: `y_pad[512*t : 512*t + 2048]`. -/
def stft_frame (y : List ℝ) (t : ℕ) : List ℝ :=
  ((stft_pad y).drop (512 * t)).take 2048

/-- `_compute_stft(y)`: returns the power spectrogram and `n_frames`.  The
`(1025 × n_frames)` matrix `S_power = np.abs(rfft(framed * window)) ** 2`
is represented by the list of its `n_frames` columns (one windowed `rfft`
power column per frame). -/
noncomputable def compute_stft (y : List ℝ) : List (List ℝ) × ℕ :=
  let S_power := (List.range (stft_n_frames y)).map (fun t =>
    (List.range 1025).map (fun (k : ℕ) =>
      Complex.abs (∑ n ∈ Finset.range 2048,
        ((hann_window n * (stft_frame y t).getD n 0 : ℝ) : ℂ) *
          Complex.exp (-(2 * (Real.pi : ℂ) * Complex.I * (k : ℂ) * (n : ℂ))
            / 2048)) ^ 2))
  (S_power, stft_n_frames y)

/-! ## MD5 (RFC 1321) — the hash behind `hashlib.md5`

Both `batch_analyzer._cache_key` and `similarity._cache_key` call
`hashlib.md5(key_str.encode()).hexdigest()`; the algorithm is embedded here
over `ℕ` bytes/words with explicit `% 2^32`. -/

/-- 32-bit word state `(a, b, c, d)` of the MD5 compression function. -/
structure MD5State where
  a : ℕ
  b : ℕ
  c : ℕ
  d : ℕ
  deriving DecidableEq

def md5_init : MD5State := ⟨0x67452301, 0xefcdab89, 0x98badcfe, 0x10325476⟩

/-- The per-round shift amounts. -/
def md5_s : List ℕ :=
  [7, 12, 17, 22, 7, 12, 17, 22, 7, 12, 17, 22, 7, 12, 17, 22,
   5, 9, 14, 20, 5, 9, 14, 20, 5, 9, 14, 20, 5, 9, 14, 20,
   4, 11, 16, 23, 4, 11, 16, 23, 4, 11, 16, 23, 4, 11, 16, 23,
   6, 10, 15, 21, 6, 10, 15, 21, 6, 10, 15, 21, 6, 10, 15, 21]

/-- The sine-derived constants `K[i] = floor(2^32 * |sin(i + 1)|)`. -/
def md5_k : List ℕ :=
  [0xd76aa478, 0xe8c7b756, 0x242070db, 0xc1bdceee,
   0xf57c0faf, 0x4787c62a, 0xa8304613, 0xfd469501,
   0x698098d8, 0x8b44f7af, 0xffff5bb1, 0x895cd7be,
   0x6b901122, 0xfd987193, 0xa679438e, 0x49b40821,
   0xf61e2562, 0xc040b340, 0x265e5a51, 0xe9b6c7aa,
   0xd62f105d, 0x02441453, 0xd8a1e681, 0xe7d3fbc8,
   0x21e1cde6, 0xc33707d6, 0xf4d50d87, 0x455a14ed,
   0xa9e3e905, 0xfcefa3f8, 0x676f02d9, 0x8d2a4c8a,
   0xfffa3942, 0x8771f681, 0x6d9d6122, 0xfde5380c,
   0xa4beea44, 0x4bdecfa9, 0xf6bb4b60, 0xbebfbc70,
   0x289b7ec6, 0xeaa127fa, 0xd4ef3085, 0x04881d05,
   0xd9d4d039, 0xe6db99e5, 0x1fa27cf8, 0xc4ac5665,
   0xf4292244, 0x432aff97, 0xab9423a7, 0xfc93a039,
   0x655b59c3, 0x8f0ccc92, 0xffeff47d, 0x85845dd1,
   0x6fa87e4f, 0xfe2ce6e0, 0xa3014314, 0x4e0811a1,
   0xf7537e82, 0xbd3af235, 0x2ad7d2bb, 0xeb86d391]

/-- The round function `F`/`G`/`H`/`I` selected by the step index. -/
def md5_f (i b c d : ℕ) : ℕ :=
  if i < 16 then (b &&& c) ||| ((b ^^^ 0xffffffff) &&& d)
  else if i < 32 then (d &&& b) ||| ((d ^^^ 0xffffffff) &&& c)
  else if i < 48 then b ^^^ c ^^^ d
  else c ^^^ (b ||| (d ^^^ 0xffffffff))

/-- The message-word index used at step `i`. -/
def md5_g (i : ℕ) : ℕ :=
  if i < 16 then i
  else if i < 32 then (5 * i + 1) % 16
  else if i < 48 then (3 * i + 5) % 16
  else (7 * i) % 16

/-- Rotate a 32-bit word left by `s` bits. -/
def rotl32 (w s : ℕ) : ℕ := ((w <<< s) % 4294967296) ||| (w >>> (32 - s))

/-- Little-endian 32-bit words of a 64-byte block. -/
def block_words (block : List ℕ) (j : ℕ) : ℕ :=
  block.getD (4 * j) 0 + 256 * block.getD (4 * j + 1) 0 +
    65536 * block.getD (4 * j + 2) 0 + 16777216 * block.getD (4 * j + 3) 0

/-- One step of the MD5 compression function. -/
def md5_step (block : List ℕ) (st : MD5State) (i : ℕ) : MD5State :=
  let f := md5_f i st.b st.c st.d
  let sum := (st.a + f + md5_k.getD i 0 + block_words block (md5_g i)) % 4294967296
  ⟨st.d, (st.b + rotl32 sum (md5_s.getD i 0)) % 4294967296, st.b, st.c⟩

/-- Compress one 64-byte block into the running state. -/
def md5_block (st : MD5State) (block : List ℕ) : MD5State :=
  let r := (List.range 64).foldl (md5_step block) st
  ⟨(st.a + r.a) % 4294967296, (st.b + r.b) % 4294967296,
   (st.c + r.c) % 4294967296, (st.d + r.d) % 4294967296⟩

/-- Split a message into its successive 64-byte blocks (structural
recursion on a fuel bounded by the length; each step consumes at least one
byte, so `fuel = msg.length` always suffices). -/
def chunks64 : ℕ → List ℕ → List (List ℕ)
  | 0, _ => []
  | _, [] => []
  | fuel + 1, msg => msg.take 64 :: chunks64 fuel (msg.drop 64)

/-- Process a padded message, 64 bytes at a time. -/
def md5_blocks (st : MD5State) (msg : List ℕ) : MD5State :=
  (chunks64 msg.length msg).foldl md5_block st

/-- MD5 padding: `0x80`, zeros to 56 mod 64, then the 8-byte little-endian
bit length. -/
def md5_pad (msg : List ℕ) : List ℕ :=
  let zeros := (119 - msg.length % 64) % 64
  let bitLen := (8 * msg.length) % (2 ^ 64)
  msg ++ [0x80] ++ List.replicate zeros 0 ++
    (List.range 8).map (fun j => bitLen / 256 ^ j % 256)

/-- The four bytes of a 32-bit word, little-endian. -/
def word_bytes (w : ℕ) : List ℕ :=
  [w % 256, w / 256 % 256, w / 65536 % 256, w / 16777216 % 256]

/-- The 16-byte MD5 digest of a byte string. -/
def md5_digest (msg : List ℕ) : List ℕ :=
  let st := md5_blocks md5_init (md5_pad msg)
  [st.a, st.b, st.c, st.d].flatMap word_bytes

/-- The sixteen lowercase hexadecimal digit characters. -/
def hex_chars : List Char := "0123456789abcdef".toList

/-- `.hexdigest()`: lowercase hex, two characters per digest byte. -/
def md5_hexdigest (msg : List ℕ) : String :=
  String.mk ((md5_digest msg).flatMap
    (fun b => [hex_chars.getD (b / 16) '0', hex_chars.getD (b % 16) '0']))

/-- `str.encode()`: UTF-8 bytes of a string. -/
def str_bytes (s : String) : List ℕ := s.toUTF8.data.toList.map (·.toNat)

-- Sanity anchors for the MD5 embedding (RFC 1321 test vectors).
set_option maxRecDepth 10000 in
example : md5_hexdigest (str_bytes "") = "d41d8cd98f00b204e9800998ecf8427e" := by decide

set_option maxRecDepth 10000 in
example : md5_hexdigest (str_bytes "abc") = "900150983cd24fb0d6963f7d28e17f72" := by decide

/-! ## The two `_cache_key` functions

`batch_analyzer._cache_key(file_path)` and `similarity._cache_key(file_path)`
both build `f"{p.absolute()}|{stat.st_mtime}|{stat.st_size}"` and hash it
with MD5.  The filesystem-dependent pieces — the absolute path string and
the decimal renderings of `st_mtime` and `st_size` — are passed in as the
strings Python's f-string produces for a fixed `(path, mtime, size)`
triple, so both functions are embedded as functions of that triple. -/

/-- `batch_analyzer._cache_key`. -/
def batch_analyzer_cache_key (absPath mtimeStr sizeStr : String) : String :=
  let key_str := absPath ++ "|" ++ mtimeStr ++ "|" ++ sizeStr
  md5_hexdigest (str_bytes key_str)

/-- `similarity._cache_key` ("Reproduce the same cache key used by
batch_analyzer"). -/
def similarity_cache_key (absPath mtimeStr sizeStr : String) : String :=
  let key_str := absPath ++ "|" ++ mtimeStr ++ "|" ++ sizeStr
  md5_hexdigest (str_bytes key_str)

/-! # Theorems for the claims -/

/-- C1: the spec (and the repository's own tests
`test_features_in_analysis_result` / `test_mfcc_shape_no_audio`) require
`analyze_track` to return a `features` field with a 20-entry `mfcc` and a
12-entry `chroma`, computed by `_compute_mfcc`.  The code is missing both:
the result dict built by `analyze_track` (audio_analyzer.py lines 59–68)
has exactly the eight keys below and no `features` key, and no
`_compute_mfcc` method exists anywhere in the source. -/
theorem C1_analyze_track_missing_features :
    "features" ∉ analyze_track_result_keys ∧
      analyze_track_result_keys.length = 8 := by
  decide

/-- C2 counterexample: with bpm 128, duration 240 s, position 0.2 and
`bars = 4`, `_snap_loop` does *not* produce the claimed normalized bounds
`(0.2, 0.23125)` (loop-in 48.0 s, loop-out 55.5 s). -/
theorem C2_counterexample :
    snap_loop (some 128) 240 0.2 4 ≠ some (0.2, 0.23125) := by
  norm_num [snap_loop, pyRound, min_def]

/-- C2 (amended): `_snap_loop` snaps the loop start to the *nearest bar
gridline*, not to the current position: `bar_num = round(48.0 / 1.875) =
round(25.6) = 26`, so the loop-in bound is `26 × 1.875 = 48.75` s and the
loop-out bound `48.75 + 4 × 1.875 = 56.25` s — normalized bounds
`48.75 / 240 = 0.203125` and `56.25 / 240 = 0.234375`. -/
theorem C2_snap_loop_bar_grid :
    snap_loop (some 128) 240 0.2 4 = some (0.203125, 0.234375) := by
  norm_num [snap_loop, pyRound, min_def]

/-- C10: if the query's own feature vector cannot be loaded,
`find_similar` returns `[]` for every candidate list and every `top_n`,
without raising. -/
theorem C10_find_similar_no_query_vector :
    ∀ (cache : Cache) (query_fp : String) (candidate_fps : List String)
      (top_n : ℕ),
      load_feature_vector cache query_fp = none →
      find_similar cache query_fp candidate_fps top_n = [] := by
  intro cache query_fp candidate_fps top_n h
  unfold find_similar
  rw [h]

/-- C10 witness: a cache with no entries at all cannot load the query's
vector, and the result is the empty list. -/
theorem C10_witness :
    load_feature_vector (fun _ => none) "track.mp3" = none ∧
      find_similar (fun _ => none) "track.mp3" ["a.mp3", "b.mp3"] 25 = [] :=
  ⟨rfl, C10_find_similar_no_query_vector (fun _ => none) "track.mp3"
    ["a.mp3", "b.mp3"] 25 rfl⟩

/-! ### C4: energy level thresholds -/

theorem levelFrom_bounds (ts : List ℝ) : ∀ (i : ℕ) (r : ℝ),
    levelFrom i ts r = 10 ∨
      (i + 1 ≤ levelFrom i ts r ∧ levelFrom i ts r ≤ i + ts.length) := by
  induction ts with
  | nil => intro i r; left; rfl
  | cons t ts ih =>
    intro i r
    by_cases h : r < t
    · right
      simp only [levelFrom, if_pos h, List.length_cons]
      omega
    · rcases ih (i + 1) r with h10 | ⟨h1, h2⟩
      · left; simp only [levelFrom, if_neg h]; exact h10
      · right; simp only [levelFrom, if_neg h, List.length_cons]; omega

theorem levelFrom_first (ts : List ℝ) : ∀ (i k : ℕ) (r : ℝ), k < ts.length →
    r < ts.getD k 0 → (∀ j, j < k → ts.getD j 0 ≤ r) →
    levelFrom i ts r = i + k + 1 := by
  induction ts with
  | nil => intro i k r hk; simp at hk
  | cons t ts ih =>
    intro i k r hk hlt hge
    cases k with
    | zero =>
      simp only [List.getD_cons_zero] at hlt
      simp [levelFrom, if_pos hlt]
    | succ k =>
      have ht : t ≤ r := by simpa using hge 0 (Nat.succ_pos k)
      have hnlt : ¬ r < t := not_lt.mpr ht
      simp only [levelFrom, if_neg hnlt]
      have := ih (i + 1) k r (by simpa using hk) (by simpa using hlt)
        (fun j hj => by simpa using hge (j + 1) (by omega))
      omega

theorem levelFrom_all_ge (ts : List ℝ) : ∀ (i : ℕ) (r : ℝ),
    (∀ j, j < ts.length → ts.getD j 0 ≤ r) → levelFrom i ts r = 10 := by
  induction ts with
  | nil => intro i r _; rfl
  | cons t ts ih =>
    intro i r h
    have hnlt : ¬ r < t := not_lt.mpr (by simpa using h 0 (by simp))
    simp only [levelFrom, if_neg hnlt]
    exact ih (i + 1) r
      (fun j hj => by simpa using h (j + 1) (by simpa using Nat.succ_lt_succ hj))

/-- C4: the energy level is the index+1 of the first threshold the rms is
strictly below (10 if it meets or exceeds all nine); it is always in
`[1, 10]` (also through `_calculate_energy_full` on any readable input),
takes the claimed values at rms 0.04 / 0.10 / 0.29 / 0.35, and the failure
default is level 5. -/
theorem C4_energy_level_spec :
    (∀ r : ℝ, 1 ≤ energy_level r ∧ energy_level r ≤ 10) ∧
    (energy_level 0.04 = 1 ∧ energy_level 0.10 = 3 ∧
      energy_level 0.29 = 9 ∧ energy_level 0.35 = 10) ∧
    calculate_energy_full none = ⟨5, 0, "Unknown"⟩ ∧
    (∀ samples : List ℝ, 1 ≤ (calculate_energy_full (some samples)).level ∧
      (calculate_energy_full (some samples)).level ≤ 10) ∧
    (∀ (r : ℝ) (i : ℕ), i < 9 → r < energy_thresholds.getD i 0 →
      (∀ j, j < i → energy_thresholds.getD j 0 ≤ r) →
      energy_level r = i + 1) ∧
    (∀ r : ℝ, (∀ j, j < 9 → energy_thresholds.getD j 0 ≤ r) →
      energy_level r = 10) := by
  have hlen : energy_thresholds.length = 9 := by simp [energy_thresholds]
  have hrange : ∀ r : ℝ, 1 ≤ energy_level r ∧ energy_level r ≤ 10 := by
    intro r
    rcases levelFrom_bounds energy_thresholds 0 r with h | ⟨h1, h2⟩
    · unfold energy_level; omega
    · unfold energy_level; rw [hlen] at h2; omega
  refine ⟨hrange, ⟨?_, ?_, ?_, ?_⟩, rfl, ?_, ?_, ?_⟩
  · norm_num [energy_level, energy_thresholds, levelFrom]
  · norm_num [energy_level, energy_thresholds, levelFrom]
  · norm_num [energy_level, energy_thresholds, levelFrom]
  · norm_num [energy_level, energy_thresholds, levelFrom]
  · intro samples
    by_cases h : samples.length = 0
    · simp [calculate_energy_full, h]
    · simp only [calculate_energy_full, if_neg h]
      exact hrange _
  · intro r i hi hlt hge
    have := levelFrom_first energy_thresholds 0 i r (by omega) hlt hge
    unfold energy_level; omega
  · intro r h
    exact levelFrom_all_ge energy_thresholds 0 r (fun j hj => h j (by omega))

/-- C4 witness: at rms 0.10 the hypotheses of the first-threshold clause
hold with `i = 2` (`0.10 < 0.11`, thresholds 0 and 1 are `≤ 0.10`), and the
level is `3`. -/
theorem C4_witness :
    ((2 : ℕ) < 9 ∧ (0.10 : ℝ) < energy_thresholds.getD 2 0 ∧
      (∀ j, j < 2 → energy_thresholds.getD j 0 ≤ (0.10 : ℝ))) ∧
    energy_level 0.10 = 2 + 1 := by
  have h1 : (2 : ℕ) < 9 := by norm_num
  have h2 : (0.10 : ℝ) < energy_thresholds.getD 2 0 := by
    norm_num [energy_thresholds]
  have h3 : ∀ j, j < 2 → energy_thresholds.getD j 0 ≤ (0.10 : ℝ) := by
    intro j hj
    interval_cases j <;> norm_num [energy_thresholds]
  exact ⟨⟨h1, h2, h3⟩, C4_energy_level_spec.2.2.2.2.1 0.10 2 h1 h2 h3⟩

/-! ### C6: key-detection failure sentinel -/

theorem index_to_key_ne_empty (ki : ℕ) (mj : Bool) : index_to_key ki mj ≠ "" := by
  intro h
  have h2 := congrArg String.length h
  simp [index_to_key, String.length_append] at h2
  exact absurd h2.1.2 (by decide)

theorem to_camelot_ne_empty (ki : ℕ) (mj : Bool) : to_camelot ki mj ≠ "" := by
  have h : ki % 12 < 12 := Nat.mod_lt _ (by norm_num)
  unfold to_camelot
  cases mj <;>
    simp only [if_true, if_false, Bool.false_eq_true, ite_false, ite_true] <;>
    (generalize hk : ki % 12 = k at h) <;> interval_cases k <;> decide

/-- C6: whenever the `try` body of `_detect_key` raises, the function
returns exactly the sentinel record `{notation: "Unknown", camelot: "N/A",
open_key: "N/A", confidence: "none"}` and never propagates the error; and
for every input (success or failure) the `notation` and `camelot` fields
are present and non-empty, falling back to the sentinel strings. -/
theorem C6_detect_key_sentinel :
    (∀ e : String, detect_key (Except.error e) =
      { keyNotation := "Unknown", camelot := "N/A"
        open_key := "N/A", confidence := "none" }) ∧
    (∀ input : Except String ((ℕ → ℕ → ℝ) × ℕ × ℝ),
      (detect_key input).keyNotation ≠ "" ∧ (detect_key input).camelot ≠ "") := by
  refine ⟨fun e => rfl, fun input => ?_⟩
  cases input with
  | error e =>
    exact ⟨by simp only [detect_key]; decide, by simp only [detect_key]; decide⟩
  | ok x =>
    obtain ⟨S, nf, sr⟩ := x
    simp only [detect_key, detect_key_ok]
    exact ⟨index_to_key_ne_empty _ _, to_camelot_ne_empty _ _⟩

/-! ### C7: cosine similarity -/

theorem zipWith_mul_self (v : List ℝ) :
    List.zipWith (· * ·) v v = v.map (fun x => x * x) := by
  induction v with
  | nil => rfl
  | cons x xs ih => simp [ih]

theorem sum_sq_nonneg (v : List ℝ) : 0 ≤ (v.map (fun x => x * x)).sum := by
  apply List.sum_nonneg
  intro x hx
  obtain ⟨y, _, rfl⟩ := List.mem_map.mp hx
  exact mul_self_nonneg y

/-- C7: `_cosine_similarity` of a vector with itself is 1.0 (within 1e-6)
when the vector's norm is at least 1e-9; it is 0.0 (within 1e-6) on
orthogonal vectors; and it returns exactly 0.0 without dividing whenever
either norm is below 1e-9. -/
theorem C7_cosine_similarity_spec :
    (∀ v : List ℝ, 1e-9 ≤ l2norm v → |cosine_similarity v v - 1| ≤ 1e-6) ∧
    (∀ a b : List ℝ, dotList a b = 0 → |cosine_similarity a b - 0| ≤ 1e-6) ∧
    (∀ a b : List ℝ, l2norm a < 1e-9 ∨ l2norm b < 1e-9 →
      cosine_similarity a b = 0) := by
  refine ⟨fun v h => ?_, fun a b h => ?_, fun a b h => ?_⟩
  · have hcond : ¬ (l2norm v < 1e-9 ∨ l2norm v < 1e-9) := by
      push_neg
      exact ⟨h, h⟩
    have hsq : l2norm v * l2norm v = (v.map (fun x => x * x)).sum :=
      Real.mul_self_sqrt (sum_sq_nonneg v)
    have hdot : dotList v v = (v.map (fun x => x * x)).sum := by
      simp [dotList, zipWith_mul_self]
    have hone : cosine_similarity v v = 1 := by
      simp only [cosine_similarity, if_neg hcond, hdot, hsq]
      exact div_self (by nlinarith)
    rw [hone]
    norm_num
  · by_cases hc : l2norm a < 1e-9 ∨ l2norm b < 1e-9
    · simp [cosine_similarity, if_pos hc]
      norm_num
    · simp [cosine_similarity, if_neg hc, h]
      norm_num
  · simp [cosine_similarity, if_pos h]

/-- C7 witness: `[3, 4]` has norm `5 ≥ 1e-9` and self-similarity within
1e-6 of 1; `[1, 0]` and `[0, 1]` have dot product 0 and similarity within
1e-6 of 0; `[0]` has norm `0 < 1e-9` so its similarity with `[1]` is
exactly 0. -/
theorem C7_witness :
    (1e-9 ≤ l2norm [3, 4] ∧ |cosine_similarity [3, 4] [3, 4] - 1| ≤ 1e-6) ∧
    (dotList [1, 0] [0, 1] = 0 ∧
      |cosine_similarity [1, 0] [0, 1] - 0| ≤ 1e-6) ∧
    (l2norm [0] < 1e-9 ∧ cosine_similarity [0] [1] = 0) := by
  have hn : l2norm [3, 4] = 5 := by
    have h25 : ((([3, 4] : List ℝ).map (fun x => x * x)).sum : ℝ) = 25 := by
      norm_num
    rw [l2norm, h25, show (25 : ℝ) = 5 ^ 2 by norm_num,
      Real.sqrt_sq (by norm_num : (0 : ℝ) ≤ 5)]
  have h1 : (1e-9 : ℝ) ≤ l2norm [3, 4] := by rw [hn]; norm_num
  have h2 : dotList [1, 0] [0, 1] = 0 := by norm_num [dotList]
  have h3 : l2norm [0] < 1e-9 := by
    have h0 : ((([0] : List ℝ).map (fun x => x * x)).sum : ℝ) = 0 := by norm_num
    rw [l2norm, h0, Real.sqrt_zero]
    norm_num
  exact ⟨⟨h1, C7_cosine_similarity_spec.1 [3, 4] h1⟩,
    ⟨h2, C7_cosine_similarity_spec.2.1 [1, 0] [0, 1] h2⟩,
    ⟨h3, C7_cosine_similarity_spec.2.2 [0] [1] (Or.inl h3)⟩⟩

/-! ### C5: find_similar exclusions -/

theorem find_similar_result_mem {cache : Cache} {q : String}
    {cands : List String} {n : ℕ} {r : SimResult}
    (h : r ∈ find_similar cache q cands n) :
    r.file_path ≠ q ∧ r.file_path ∈ cands ∧
      load_feature_vector cache r.file_path ≠ none := by
  unfold find_similar at h
  cases hq : load_feature_vector cache q with
  | none => simp only [hq] at h; simp at h
  | some qv =>
    simp only [hq] at h
    have h1 := List.mem_mergeSort.mp (List.mem_of_mem_take h)
    obtain ⟨fp, hfp, hg⟩ := List.mem_filterMap.mp h1
    by_cases hfq : fp = q
    · rw [if_pos hfq] at hg
      exact absurd hg (by simp)
    · rw [if_neg hfq] at hg
      cases hv : load_feature_vector cache fp with
      | none => simp only [hv] at hg; exact Option.noConfusion hg
      | some vec =>
        simp only [hv] at hg
        obtain rfl := Option.some_injective _ hg
        exact ⟨hfq, hfp, by rw [hv]; exact Option.noConfusion⟩

/-- C5: `find_similar` never includes the query path among its results,
every candidate whose feature vector cannot be loaded is silently skipped,
and a cached candidate whose `mfcc`/`chroma` have the wrong dimensionality
(≠ 20 / ≠ 12) has no usable feature vector. -/
theorem C5_find_similar_skips :
    (∀ (cache : Cache) (q : String) (cands : List String) (n : ℕ),
      q ∉ (find_similar cache q cands n).map SimResult.file_path) ∧
    (∀ (cache : Cache) (q : String) (cands : List String) (n : ℕ)
      (fp : String), load_feature_vector cache fp = none →
      fp ∉ (find_similar cache q cands n).map SimResult.file_path) ∧
    (∀ (cache : Cache) (fp : String) (e : CacheEntry) (f : FeatureSet),
      cache fp = some e → e.features = some f →
      (f.mfcc.length ≠ 20 ∨ f.chroma.length ≠ 12) →
      load_feature_vector cache fp = none) := by
  refine ⟨fun cache q cands n hmem => ?_, fun cache q cands n fp hload hmem => ?_,
    fun cache fp e f hc hf hdim => ?_⟩
  · obtain ⟨r, hr, hfp⟩ := List.mem_map.mp hmem
    exact (find_similar_result_mem hr).1 hfp
  · obtain ⟨r, hr, hfp⟩ := List.mem_map.mp hmem
    exact (find_similar_result_mem hr).2.2 (hfp ▸ hload)
  · unfold load_feature_vector
    simp only [hc, hf]
    rw [if_pos hdim]

/-- C5 witness: a cache whose only entry has a 2-element `mfcc` and a
1-element `chroma` yields no usable feature vector for that path, and the
path never appears in `find_similar`'s results. -/
theorem C5_witness :
    load_feature_vector
      (fun p => if p = "bad.mp3"
        then some ⟨some ⟨[1, 2], [3]⟩, none, none⟩ else none)
      "bad.mp3" = none ∧
    "bad.mp3" ∉ (find_similar
      (fun p => if p = "bad.mp3"
        then some ⟨some ⟨[1, 2], [3]⟩, none, none⟩ else none)
      "q.mp3" ["bad.mp3"] 25).map SimResult.file_path := by
  have hload := C5_find_similar_skips.2.2
    (fun p => if p = "bad.mp3"
      then some ⟨some ⟨[1, 2], [3]⟩, none, none⟩ else none)
    "bad.mp3" ⟨some ⟨[1, 2], [3]⟩, none, none⟩ ⟨[1, 2], [3]⟩
    (by simp) rfl (Or.inl (by decide))
  exact ⟨hload,
    C5_find_similar_skips.2.1 _ "q.mp3" ["bad.mp3"] 25 "bad.mp3" hload⟩

/-! ### C8: cache-key equivalence and shape -/

theorem getD_hex_mem (n : ℕ) : hex_chars.getD n '0' ∈ hex_chars := by
  rcases Nat.lt_or_ge n 16 with h | h
  · interval_cases n <;> decide
  · have hlen : hex_chars.length = 16 := rfl
    rw [List.getD_eq_default _ _ (by omega)]
    decide

theorem md5_digest_length (msg : List ℕ) : (md5_digest msg).length = 16 := by
  simp [md5_digest, word_bytes]

theorem flatMap_pair_length (l : List ℕ) (f g : ℕ → Char) :
    (l.flatMap (fun b => [f b, g b])).length = 2 * l.length := by
  induction l with
  | nil => rfl
  | cons x xs ih => simp only [List.flatMap_cons, List.length_append,
      List.length_cons, List.length_nil, ih]; omega

theorem getD_mem_of_all (l : List Char) (d : Char) (i : ℕ)
    (P : Char → Prop) (hl : ∀ x ∈ l, P x) (hd : P d) : P (l.getD i d) := by
  induction l generalizing i with
  | nil => simpa [List.getD] using hd
  | cons x xs ih =>
    cases i with
    | zero => exact hl x (by simp)
    | succ i =>
      simp only [List.getD_cons_succ]
      exact ih i (fun y hy => hl y (List.mem_cons_of_mem x hy))

/-- C8: for any fixed `(absolute path, mtime, size)` triple the two
`_cache_key` functions (batch_analyzer.py and similarity.py) compute the
same value — the MD5 hex digest of `"<abs>|<mtime>|<size>"` — and that key
is a 32-character string made only of lowercase hex characters (hence
deterministic and stable across repeated calls, being a pure function of
the triple). -/
theorem C8_cache_key_equiv :
    ∀ pAbs mtimeStr sizeStr : String,
      similarity_cache_key pAbs mtimeStr sizeStr =
        batch_analyzer_cache_key pAbs mtimeStr sizeStr ∧
      batch_analyzer_cache_key pAbs mtimeStr sizeStr =
        md5_hexdigest (str_bytes (pAbs ++ "|" ++ mtimeStr ++ "|" ++ sizeStr)) ∧
      (batch_analyzer_cache_key pAbs mtimeStr sizeStr).length = 32 ∧
      (∀ i : ℕ,
        (batch_analyzer_cache_key pAbs mtimeStr sizeStr).data.getD i '0'
          ∈ hex_chars) := by
  intro p m s
  refine ⟨rfl, rfl, ?_, ?_⟩
  · show (md5_hexdigest _).length = 32
    unfold md5_hexdigest
    show (List.flatMap _ _).length = 32
    rw [flatMap_pair_length, md5_digest_length]
  · intro i
    show (List.flatMap _ _).getD i '0' ∈ hex_chars
    apply getD_mem_of_all _ _ _ (· ∈ hex_chars)
    · intro x hx
      obtain ⟨b, _, hb⟩ := List.mem_flatMap.mp hx
      simp only [List.mem_cons, List.not_mem_nil, or_false] at hb
      rcases hb with rfl | rfl
      · exact getD_hex_mem _
      · exact getD_hex_mem _
    · decide

/-! ### C9: STFT totality and shape -/

theorem list_getD_mem {α : Type} (l : List α) (d : α) (n : ℕ)
    (h : n < l.length) : l.getD n d ∈ l := by
  induction l generalizing n with
  | nil => simp at h
  | cons x xs ih =>
    cases n with
    | zero => simp
    | succ n =>
      simp only [List.getD_cons_succ]
      exact List.mem_cons_of_mem x (ih n (by simpa using h))

/-- C9: for every input buffer — including buffers shorter than
`N_FFT = 2048` and the empty buffer — `_compute_stft` is total and returns
a `(1025 × n_frames)` power spectrogram with
`n_frames = 1 + ⌊len(y) / 512⌋ ≥ 1`, and every frame sliced by the strided
view is a full 2048-sample window (the symmetric `N_FFT/2` padding
guarantees this, so there is no error branch). -/
theorem C9_compute_stft_shape :
    ∀ y : List ℝ,
      (compute_stft y).2 = 1 + y.length / 512 ∧
      1 ≤ (compute_stft y).2 ∧
      (compute_stft y).1.length = (compute_stft y).2 ∧
      (∀ col ∈ (compute_stft y).1, col.length = 1025) ∧
      (∀ t, t < (compute_stft y).2 → (stft_frame y t).length = 2048) := by
  intro y
  have hpadlen : (stft_pad y).length = y.length + 2048 := by
    unfold stft_pad
    simp only [List.length_append, List.length_replicate]
    omega
  have hnf : stft_n_frames y = 1 + y.length / 512 := by
    unfold stft_n_frames
    rw [hpadlen]
    omega
  have h2 : (compute_stft y).2 = stft_n_frames y := rfl
  refine ⟨h2 ▸ hnf, by omega, ?_, ?_, ?_⟩
  · show ((List.range (stft_n_frames y)).map _).length = stft_n_frames y
    rw [List.length_map, List.length_range]
  · intro col hcol
    obtain ⟨t, ht, hcol⟩ := List.mem_map.mp hcol
    rw [← hcol, List.length_map, List.length_range]
  · intro t ht
    rw [h2, hnf] at ht
    unfold stft_frame
    rw [List.length_take, List.length_drop, hpadlen]
    omega

/-- C9 witness: for the empty buffer there is at least one frame, frame 0
is a full 2048-sample window, and column 0 of the spectrogram has 1025
bins. -/
theorem C9_witness :
    1 ≤ (compute_stft ([] : List ℝ)).2 ∧
    (stft_frame ([] : List ℝ) 0).length = 2048 ∧
    ((compute_stft ([] : List ℝ)).1.getD 0 []).length = 1025 := by
  have hthm := C9_compute_stft_shape []
  refine ⟨hthm.2.1, hthm.2.2.2.2 0 (by omega), ?_⟩
  have hmem : (compute_stft ([] : List ℝ)).1.getD 0 [] ∈
      (compute_stft ([] : List ℝ)).1 := by
    apply list_getD_mem
    have := hthm.2.2.1
    have := hthm.2.1
    omega
  exact hthm.2.2.2.1 _ hmem

/-! ### C3: BPM range -/

theorem pyRoundR_ge_floor (x : ℝ) : ⌊x⌋ ≤ pyRoundR x := by
  simp only [pyRoundR]
  split_ifs <;> omega

theorem pyRoundR_le_floor_add_one (x : ℝ) : pyRoundR x ≤ ⌊x⌋ + 1 := by
  simp only [pyRoundR]
  split_ifs <;> omega

theorem pyRoundR_mono {x y : ℝ} (hxy : x ≤ y) : pyRoundR x ≤ pyRoundR y := by
  rcases lt_or_le ⌊x⌋ ⌊y⌋ with hf | hf
  · calc pyRoundR x ≤ ⌊x⌋ + 1 := pyRoundR_le_floor_add_one x
    _ ≤ ⌊y⌋ := by omega
    _ ≤ pyRoundR y := pyRoundR_ge_floor y
  · have hfe : ⌊x⌋ = ⌊y⌋ := le_antisymm (Int.floor_le_floor hxy) hf
    have hr : x - (⌊x⌋ : ℝ) ≤ y - (⌊y⌋ : ℝ) := by
      rw [← hfe]
      linarith
    simp only [pyRoundR]
    rw [hfe]
    split_ifs with h1 h2 h3 h4 h5 h6 h7 h8 h9 h10 h11 h12 <;>
      first
      | omega
      | (exfalso; rw [hfe] at *; linarith)

theorem argmaxList_mem {f : ℕ → ℝ} : ∀ {l : List ℕ} {y : ℕ},
    argmaxList f l = some y → y ∈ l := by
  intro l
  induction l with
  | nil => intro y h; exact absurd h (by simp [argmaxList])
  | cons x xs ih =>
    intro y h
    rw [argmaxList] at h
    cases hxs : argmaxList f xs with
    | none =>
      simp only [hxs] at h
      obtain rfl := Option.some_injective _ h
      simp
    | some z =>
      simp only [hxs] at h
      by_cases hgt : f z > f x
      · rw [if_pos hgt] at h
        obtain rfl := Option.some_injective _ h
        exact List.mem_cons_of_mem x (ih hxs)
      · rw [if_neg hgt] at h
        obtain rfl := Option.some_injective _ h
        simp

theorem argmaxList_head_of_all_eq {f : ℕ → ℝ} {c : ℝ} : ∀ (l : List ℕ),
    (∀ x ∈ l, f x = c) → argmaxList f l = l.head? := by
  intro l
  induction l with
  | nil => intro _; rfl
  | cons x xs ih =>
    intro h
    rw [argmaxList]
    rw [ih (fun z hz => h z (List.mem_cons_of_mem x hz))]
    cases xs with
    | nil => rfl
    | cons z zs =>
      have hzx : ¬ f z > f x := by
        rw [h z (by simp), h x (by simp)]
        exact lt_irrefl c
      simp only [List.head?_cons, if_neg hzx]

theorem pyInt_of_nonneg {x : ℝ} (h : 0 ≤ x) : pyInt x = ⌊x⌋ := by
  simp only [pyInt]
  rw [if_pos h]

theorem s_mel_db_zero (m t : ℕ) : s_mel_db (fun _ _ => 0) m t = -100 := by
  have hmel : s_mel (fun _ _ => 0) m t = 0 := by
    simp [s_mel]
  have hlogb : Real.logb 10 (1e-10 : ℝ) = -10 := by
    have h10 : (1e-10 : ℝ) = (10 : ℝ) ^ (-10 : ℝ) := by
      rw [Real.rpow_neg (by norm_num), show ((10 : ℝ) ^ (10 : ℝ)) = 10 ^ (10 : ℕ) by
        rw [← Real.rpow_natCast]; norm_num]
      norm_num
    rw [h10, Real.logb_rpow (by norm_num) (by norm_num)]
  rw [s_mel_db, hmel]
  rw [show (0 : ℝ) + 1e-10 = 1e-10 by ring, hlogb]
  norm_num

theorem onset_env_zero (T t : ℕ) : onset_env (fun _ _ => 0) T t = 0 := by
  have hflux : ∀ u, onset_flux (fun _ _ => 0) u = 0 := by
    intro u
    rw [onset_flux]
    rw [Finset.sum_eq_zero]
    · norm_num
    · intro m _
      rw [s_mel_db_zero, s_mel_db_zero]
      norm_num
  rw [onset_env, hflux]
  rw [Finset.sum_eq_zero (fun u _ => hflux u)]
  norm_num

theorem autocorr_zero (T l : ℕ) : autocorr (fun _ _ => 0) T l = 0 := by
  rw [autocorr, Finset.sum_eq_zero]
  intro t _
  rw [onset_env_zero, onset_env_zero]
  ring

theorem bpm_lag_min_22050 : bpm_lag_min 22050 = 12 := by
  have harg : (0 : ℝ) ≤ 22050 / 512 * 60 / 200 := by norm_num
  have hfloor : ⌊(22050 : ℝ) / 512 * 60 / 200⌋ = 12 := by
    rw [Int.floor_eq_iff]
    norm_num
  rw [bpm_lag_min, pyInt_of_nonneg harg, hfloor]
  decide

theorem bpm_lag_max_100_22050 : bpm_lag_max 100 22050 = 43 := by
  have harg : (0 : ℝ) ≤ 22050 / 512 * 60 / 60 := by norm_num
  have hfloor : ⌊(22050 : ℝ) / 512 * 60 / 60⌋ = 43 := by
    rw [Int.floor_eq_iff]
    norm_num
  rw [bpm_lag_max, pyInt_of_nonneg harg, hfloor]
  norm_num

theorem bpm_peak_lag_zero : bpm_peak_lag (fun _ _ => 0) 100 22050 = some 12 := by
  rw [bpm_peak_lag, bpm_lag_min_22050, bpm_lag_max_100_22050]
  rw [if_pos (by norm_num : (12 : ℤ) < 43)]
  rw [argmaxList_head_of_all_eq (c := 0) _
    (fun x _ => autocorr_zero 100 x)]
  decide

theorem detect_bpm_zero_eval :
    detect_bpm (fun _ _ => 0) 100 22050 = some 215.3 := by
  rw [detect_bpm, if_neg (by norm_num : ¬ (100 : ℕ) < 2)]
  simp only [bpm_peak_lag_zero]
  have harg : (22050 : ℝ) / 512 * 60 / ((12 : ℕ) : ℝ) * 10 = 21533203125e-7 := by
    norm_num
  have hfloor : ⌊(21533203125e-7 : ℝ)⌋ = 2153 := by
    rw [Int.floor_eq_iff]
    norm_num
  rw [pyRound1R, pyRoundR]
  simp only [harg, hfloor]
  rw [if_pos (by norm_num : (21533203125e-7 : ℝ) - (2153 : ℤ) < 1 / 2)]
  norm_num

/-- C3 counterexample: on the all-zero 1025×100 power spectrogram at
sample rate 22050 the autocorrelation is identically zero, `np.argmax`
returns the first lag of the slice (`peak_lag = lag_min = 12 <
fps·60/200 ≈ 12.92`), and `_detect_bpm` succeeds with 215.3 BPM — outside
the claimed range `[60, 200]`. -/
theorem C3_counterexample :
    detect_bpm (fun _ _ => 0) 100 22050 = some 215.3 ∧
      ¬ (215.3 : ℝ) ≤ 200 := by
  exact ⟨detect_bpm_zero_eval, by norm_num⟩

/-- C3 (amended): whenever `_detect_bpm` succeeds, the returned tempo is
`fps*60/peak_lag` rounded to one decimal, with `peak_lag` the first-maximum
lag of the onset-envelope autocorrelation over `[lag_min, lag_max)`; the
tempo is always at least 60 BPM, but because `lag_min = int(fps*60/200)`
truncates downward the tempo can exceed 200 BPM, up to
`round(fps*60/lag_min, 1)` (215.3 at sr = 22050). -/
theorem C3_detect_bpm_range :
    ∀ (S : ℕ → ℕ → ℝ) (T : ℕ) (sr t : ℝ), 0 < sr →
      detect_bpm S T sr = some t →
      ∃ p : ℕ, bpm_peak_lag S T sr = some p ∧
        t = pyRound1R (sr / 512 * 60 / p) ∧
        bpm_lag_min sr ≤ (p : ℤ) ∧ (p : ℤ) < bpm_lag_max T sr ∧
        60 ≤ t ∧ t ≤ pyRound1R (sr / 512 * 60 / ((bpm_lag_min sr : ℤ) : ℝ)) := by
  intro S T sr t hsr h
  rw [detect_bpm] at h
  by_cases hT : T < 2
  · rw [if_pos hT] at h
    exact absurd h (by simp)
  rw [if_neg hT] at h
  cases hp : bpm_peak_lag S T sr with
  | none => rw [hp] at h; exact absurd h (by simp)
  | some p =>
    simp only [hp] at h
    obtain rfl := (Option.some_injective _ h).symm
    -- bounds on p from the lag slice
    have hple : bpm_lag_min sr ≤ (p : ℤ) ∧ (p : ℤ) < bpm_lag_max T sr := by
      rw [bpm_peak_lag] at hp
      by_cases hl : bpm_lag_min sr < bpm_lag_max T sr
      · rw [if_pos hl] at hp
        have hmem := argmaxList_mem hp
        obtain ⟨j, hj, hpj⟩ := List.mem_map.mp hmem
        rw [List.mem_range] at hj
        have h1 : (1 : ℤ) ≤ bpm_lag_min sr := le_max_left 1 _
        have htn : ((bpm_lag_min sr).toNat : ℤ) = bpm_lag_min sr :=
          Int.toNat_of_nonneg (by omega)
        omega
      · rw [if_neg hl] at hp
        exact absurd hp (by simp)
    obtain ⟨hpl, hpu⟩ := hple
    have h1 : (1 : ℤ) ≤ bpm_lag_min sr := le_max_left 1 _
    have hppos : (0 : ℝ) < (p : ℝ) := by
      have : (1 : ℤ) ≤ (p : ℤ) := le_trans h1 hpl
      exact_mod_cast this
    have hfps : (0 : ℝ) < sr / 512 := by positivity
    -- p < fps
    have hfps60 : sr / 512 * 60 / 60 = sr / 512 := by ring
    have hlagmax : bpm_lag_max T sr ≤ ⌊sr / 512⌋ := by
      rw [bpm_lag_max, pyInt_of_nonneg (by positivity), hfps60]
      exact min_le_right _ _
    have hpfps : (p : ℝ) < sr / 512 := by
      have hpz : (p : ℤ) < ⌊sr / 512⌋ := lt_of_lt_of_le hpu hlagmax
      have : ((p : ℤ) : ℝ) + 1 ≤ (⌊sr / 512⌋ : ℝ) := by exact_mod_cast hpz
      have hfl := Int.floor_le (sr / 512)
      push_cast at this ⊢
      linarith
    -- 60 < fps*60/p
    have hgt60 : (60 : ℝ) < sr / 512 * 60 / p := by
      rw [lt_div_iff₀ hppos]
      nlinarith
    have hge60 : (60 : ℝ) ≤ pyRound1R (sr / 512 * 60 / p) := by
      have hfl : (600 : ℤ) ≤ ⌊sr / 512 * 60 / p * 10⌋ := by
        rw [Int.le_floor]
        push_cast
        linarith
      have := pyRoundR_ge_floor (sr / 512 * 60 / p * 10)
      rw [pyRound1R]
      have hcast : (600 : ℝ) ≤ ((pyRoundR (sr / 512 * 60 / p * 10) : ℤ) : ℝ) := by
        exact_mod_cast le_trans hfl this
      linarith
    -- upper bound via monotone rounding
    have hlminpos : (0 : ℝ) < ((bpm_lag_min sr : ℤ) : ℝ) := by
      exact_mod_cast lt_of_lt_of_le zero_lt_one h1
    have hlep : ((bpm_lag_min sr : ℤ) : ℝ) ≤ (p : ℝ) := by exact_mod_cast hpl
    have hdivle : sr / 512 * 60 / p ≤ sr / 512 * 60 / ((bpm_lag_min sr : ℤ) : ℝ) := by
      apply div_le_div_of_nonneg_left (by positivity) hlminpos hlep
    have hub : pyRound1R (sr / 512 * 60 / p) ≤
        pyRound1R (sr / 512 * 60 / ((bpm_lag_min sr : ℤ) : ℝ)) := by
      rw [pyRound1R, pyRound1R]
      have := pyRoundR_mono (by linarith :
        sr / 512 * 60 / p * 10 ≤ sr / 512 * 60 / ((bpm_lag_min sr : ℤ) : ℝ) * 10)
      have hc : ((pyRoundR (sr / 512 * 60 / p * 10) : ℤ) : ℝ) ≤
          ((pyRoundR (sr / 512 * 60 / ((bpm_lag_min sr : ℤ) : ℝ) * 10) : ℤ) : ℝ) := by
        exact_mod_cast this
      linarith
    exact ⟨p, rfl, rfl, hpl, hpu, hge60, hub⟩

/-- C3 witness: the amended bounds hold at the all-zero spectrogram,
where detection succeeds with tempo 215.3 and
`lag_min = 12`, `round(fps*60/12, 1) = 215.3`. -/
theorem C3_witness :
    (0 : ℝ) < 22050 ∧ detect_bpm (fun _ _ => 0) 100 22050 = some 215.3 ∧
      (60 : ℝ) ≤ 215.3 ∧
      ∃ p : ℕ, bpm_peak_lag (fun _ _ => 0) 100 22050 = some p ∧
        (215.3 : ℝ) = pyRound1R ((22050 : ℝ) / 512 * 60 / p) := by
  have hbig := C3_detect_bpm_range (fun _ _ => 0) 100 22050 215.3
    (by norm_num) detect_bpm_zero_eval
  obtain ⟨p, hp, ht, _, _, h60, _⟩ := hbig
  exact ⟨by norm_num, detect_bpm_zero_eval, h60, p, hp, ht⟩

end TrackFlow
